import Mathlib

/-!
Shallow embedding of the `pubmed-fetcher` affiliation classifier and paper
model (`src/pubmed_fetcher/models.py`, `src/pubmed_fetcher/parser.py`).

Python strings are modelled as `String` / `List Char` (Python `str.find` and
slicing are code-point based, matching `List Char` indices).  Python `None`
becomes `Option.none`; Python truthiness of an optional string is "some and
non-empty".
-/

namespace PubMed

/-- Python `str.lower()` (ASCII range, which covers every keyword constant). -/
def pyLower (s : String) : String := ⟨s.data.map Char.toLower⟩

/-- Decidable "pat is a prefix of txt" on character lists. -/
def isLeadOf : List Char → List Char → Bool
  | [], _ => true
  | _ :: _, [] => false
  | a :: as, b :: bs => a = b && isLeadOf as bs

/-- First index (in characters) at which `pat` occurs in `txt`, scanning from
index `i`; `none` if it never occurs.  Models Python `str.find` (with `none`
for `-1`) and the `in` substring test. -/
def findSubFrom (pat : List Char) : List Char → Nat → Option Nat
  | txt, i =>
    if isLeadOf pat txt then some i
    else
      match txt with
      | [] => none
      | _ :: t => findSubFrom pat t (i + 1)

/-- First occurrence index of `pat` in `txt` (Python `txt.find(pat)`). -/
def findSub (pat txt : List Char) : Option Nat := findSubFrom pat txt 0

/-- Python `pat in txt` substring test. -/
def containsSub (txt pat : List Char) : Bool := (findSub pat txt).isSome

/-- Python `str.split()` with no argument: split on whitespace runs, dropping
empty pieces. -/
def pySplitWs (s : List Char) : List (List Char) :=
  (List.splitOnP Char.isWhitespace s).filter (fun p => p ≠ [])

/-- Python `str.split(sep)` for a one-character separator: split at every
occurrence, keeping empty pieces. -/
def pySplitChar (sep : Char) (s : List Char) : List (List Char) :=
  List.splitOnP (fun c => c = sep) s

/-- Python `str.replace(".", "")`: remove every dot. -/
def removeDots (s : List Char) : List Char := s.filter (fun c => c ≠ '.')

/-- Strip characters satisfying `p` from both ends (Python `str.strip(chars)`). -/
def stripEnds (p : Char → Bool) (s : List Char) : List Char :=
  ((s.dropWhile p).reverse.dropWhile p).reverse

/-- Python `str.strip()` with no argument: strip whitespace from both ends. -/
def pyStrip (s : List Char) : List Char := stripEnds Char.isWhitespace s

/-- Python `str.strip()` on a `String`. -/
def pyStripS (s : String) : String := ⟨pyStrip s.data⟩

/-- Python truthiness of an optional string: `None` and `""` are falsy. -/
def optTruthy : Option String → Bool
  | none => false
  | some s => s ≠ ""

/-- Modelled from the spec: the repository's `utils.py` (which defines
`ACADEMIC_KEYWORDS`) is not present under `src/`; the set is modelled from the
spec's listed examples "university, institute, school, hospital". -/
def ACADEMIC_KEYWORDS : List String :=
  ["university", "institute", "school", "hospital"]

/-- Modelled from the spec: the repository's `utils.py` (which defines
`COMPANY_KEYWORDS`) is not present under `src/`; the set is modelled from the
spec's listed examples "inc, ltd, corp, pharma, biotech, gmbh". -/
def COMPANY_KEYWORDS : List String :=
  ["inc", "ltd", "corp", "pharma", "biotech", "gmbh"]

/-- Line 36 of `models.py`: `any(keyword in affiliation_lower for keyword in
ACADEMIC_KEYWORDS)` — a plain substring test.  `al` is the lower-cased
affiliation. -/
def hasAcademicKw (al : String) : Bool :=
  ACADEMIC_KEYWORDS.any (fun k => containsSub al.data k.data)

/-- Lines 39-43 of `models.py`: a company keyword matches when it is a whole
token of the dot-stripped text, or occurs bounded by spaces in the text padded
with one space on each side. -/
def companyKwMatch (k : String) (al : String) : Bool :=
  (pySplitWs (removeDots al.data)).contains k.data
    || containsSub (' ' :: al.data ++ [' ']) (' ' :: k.data ++ [' '])

/-- Lines 39-43 of `models.py`: `has_company`. -/
def hasCompanyKw (al : String) : Bool :=
  COMPANY_KEYWORDS.any (fun k => companyKwMatch k al)

/-- Minimum of two optional positions (`none` plays `float('inf')`). -/
def optMin : Option Nat → Option Nat → Option Nat
  | none, b => b
  | some a, none => some a
  | some a, some b => some (Nat.min a b)

/-- Fold `optMin` over a list of optional positions. -/
def minPosList (l : List (Option Nat)) : Option Nat := l.foldl optMin none

/-- Lines 51-54 of `models.py`: earliest `str.find` offset of any academic
keyword (`none` means no keyword occurs, i.e. the position stays `inf`). -/
def academicMinPos (al : String) : Option Nat :=
  minPosList (ACADEMIC_KEYWORDS.map (fun k => findSub k.data al.data))

/-- Lines 56-59 of `models.py`: earliest `str.find` offset of any company
keyword. -/
def companyMinPos (al : String) : Option Nat :=
  minPosList (COMPANY_KEYWORDS.map (fun k => findSub k.data al.data))

/-- `company_pos < academic_pos` with `none` as `float('inf')`. -/
def infLt : Option Nat → Option Nat → Bool
  | some c, some a => c < a
  | some _, none => true
  | none, _ => false

/-- `Author._check_non_academic_affiliation` (`models.py` lines 28-64). -/
def checkNonAcademic (affiliation : Option String) : Bool :=
  match affiliation with
  | none => false
  | some aff =>
    if aff = "" then false
    else
      let al := pyLower aff
      let hasAcademic := hasAcademicKw al
      let hasCompany := hasCompanyKw al
      if hasAcademic && hasCompany then
        infLt (companyMinPos al) (academicMinPos al)
      else
        hasCompany

/-- `models.py` lines 75-78: organizational-unit noise markers. -/
def NOISE_WORDS : List String :=
  ["department", "division", "unit", "group", "team", "laboratory",
   "research", "development", "r&d", "@", "email", "address", "tel", "fax"]

/-- Python `part.strip("., ")`. -/
def stripPunct (s : List Char) : List Char :=
  stripEnds (fun c => c = '.' || c = ',' || c = ' ') s

/-- `models.py` lines 89-92 and 96-99: strip `"., "`, and when an `@` remains,
keep only the whitespace tokens without `@`, joined by single spaces. -/
def cleanCompany (part : List Char) : List Char :=
  let c := stripPunct part
  if c.contains '@' then
    List.intercalate [' '] ((pySplitWs c).filter (fun w => !w.contains '@'))
  else c

/-- `models.py` line 87: the part contains a company keyword as a whole token
of its dot-stripped lower-cased text. -/
def partHasCompanyKw (part : List Char) : Bool :=
  COMPANY_KEYWORDS.any
    (fun k => (pySplitWs (removeDots (part.map Char.toLower))).contains k.data)

/-- `Author._extract_company_name` (`models.py` lines 66-100). -/
def extractCompanyName (affiliation : Option String) (isNonAcad : Bool) :
    Option String :=
  match affiliation with
  | none => none
  | some aff =>
    if aff = "" || !isNonAcad then none
    else
      let parts := (pySplitChar ',' aff.data).map pyStrip
      let parts := parts.filter
        (fun p => p ≠ [] &&
          !(NOISE_WORDS.any (fun w => containsSub (p.map Char.toLower) w.data)))
      match parts with
      | [] => none
      | p0 :: _ =>
        match parts.find? partHasCompanyKw with
        | some part => some ⟨cleanCompany part⟩
        | none => some ⟨cleanCompany p0⟩

/-- The `Author` dataclass (`models.py` lines 10-19). -/
structure Author where
  name : String
  affiliation : Option String := none
  email : Option String := none
  is_corresponding : Bool := false
  is_non_academic : Bool := false
  company_name : Option String := none
  deriving Repr, DecidableEq

/-- Dataclass construction followed by `Author.__post_init__` (`models.py`
lines 21-26): when the affiliation is truthy the derived fields are computed,
and `company_name` is only overwritten when the classification is
non-academic; otherwise every constructor-supplied value passes through. -/
def mkAuthor (name : String) (affiliation email : Option String)
    (is_corresponding is_non_academic0 : Bool) (company_name0 : Option String) :
    Author :=
  if optTruthy affiliation then
    let ina := checkNonAcademic affiliation
    { name := name, affiliation := affiliation, email := email,
      is_corresponding := is_corresponding, is_non_academic := ina,
      company_name :=
        if ina then extractCompanyName affiliation ina else company_name0 }
  else
    { name := name, affiliation := affiliation, email := email,
      is_corresponding := is_corresponding, is_non_academic := is_non_academic0,
      company_name := company_name0 }

/-- `Author(name, affiliation)` with every other field left at its dataclass
default. -/
def mkAuthorDefault (name : String) (affiliation : Option String) : Author :=
  mkAuthor name affiliation none false false none

/-- The pure classifier of spec section 4.1: the pair of derived fields
computed for a default-constructed author with the given affiliation. -/
def classifyAffiliation (aff : Option String) : Bool × Option String :=
  let a := mkAuthorDefault "" aff
  (a.is_non_academic, a.company_name)

/-- A calendar date (`datetime.date`). -/
structure PDate where
  year : Nat
  month : Nat
  day : Nat
  deriving Repr, DecidableEq

/-- The `Paper` dataclass (`models.py` lines 103-111). -/
structure Paper where
  pubmed_id : String
  title : String
  publication_date : PDate
  authors : List Author
  abstract : Option String := none
  deriving Repr, DecidableEq

/-- `Paper.non_academic_authors` (`models.py` lines 113-116). -/
def nonAcademicAuthors (p : Paper) : List Author :=
  p.authors.filter (fun a => a.is_non_academic)

/-- The non-`None` company names of the non-academic authors, in author
order (the elements of the set comprehension of `models.py` lines 121-125). -/
def companyNamesList (p : Paper) : List String :=
  (nonAcademicAuthors p).filterMap (fun a => a.company_name)

/-- Insert a string into a strictly sorted list, skipping duplicates: this is
the canonical model of building a Python `set` and applying `sorted`. -/
def sortedInsert (s : String) : List String → List String
  | [] => [s]
  | t :: ts =>
    if s < t then s :: t :: ts
    else if s = t then t :: ts
    else t :: sortedInsert s ts

/-- `Paper.company_affiliations` (`models.py` lines 118-126):
`sorted(list({...}))` modelled as the strictly sorted duplicate-free list of
the company names. -/
def companyAffiliations (p : Paper) : List String :=
  (companyNamesList p).foldr sortedInsert []

/-- Python truthiness of the `email` field inside the `corresponding` loops of
`models.py` lines 131-139 (`author.email` is truthy when non-`None` and
non-empty). -/
def emailTruthy (a : Author) : Bool := optTruthy a.email

/-- `Paper.corresponding_author_email` (`models.py` lines 128-141): first
author that is corresponding with a truthy email, else first author with a
truthy email, else `None`. -/
def correspondingAuthorEmail (p : Paper) : Option String :=
  match p.authors.find? (fun a => a.is_corresponding && emailTruthy a) with
  | some a => a.email
  | none =>
    match p.authors.find? emailTruthy with
    | some a => a.email
    | none => none

/-! ## Parser (`parser.py`) -/

/-- Exactly `n` ASCII digits — the `strptime` `%Y` group is `\d\d\d\d`. -/
def digitsExact (n : Nat) (s : List Char) : Bool :=
  s.all Char.isDigit && s.length = n

/-- Decimal value of an all-digit string. -/
def digitsToNat (s : List Char) : Nat :=
  s.foldl (fun n c => 10 * n + (c.toNat - 48)) 0

/-- The `strptime` `%m` group `1[0-2]|0[1-9]|[1-9]`: one or two digits with
value 1..12 (no "0", no "00"). -/
def monthGroup (s : List Char) : Bool :=
  s.all Char.isDigit && s.length ≥ 1 && s.length ≤ 2
    && 1 ≤ digitsToNat s && digitsToNat s ≤ 12

/-- The `strptime` `%d` group `3[01]|[12]\d|0[1-9]|[1-9]| [1-9]`: one or two
digits with value 1..31, or a space-padded single digit 1-9. -/
def dayGroup (s : List Char) : Bool :=
  (s.all Char.isDigit && s.length ≥ 1 && s.length ≤ 2
    && 1 ≤ digitsToNat s && digitsToNat s ≤ 31)
  || (match s with
      | [' ', c] => c.isDigit && c ≠ '0'
      | _ => false)

/-- Numeric value of a matched `%d` group (drop the optional space pad). -/
def dayValue (s : List Char) : Nat :=
  match s with
  | ' ' :: t => digitsToNat t
  | _ => digitsToNat s

/-- Days in a month under the proleptic Gregorian rules `datetime` uses. -/
def daysInMonth (y m : Nat) : Nat :=
  if m = 2 then
    if y % 4 = 0 && (y % 100 ≠ 0 || y % 400 = 0) then 29 else 28
  else if m = 4 || m = 6 || m = 9 || m = 11 then 30
  else 31

/-- `datetime.strptime(s, "%Y-%m-%d").date()` as a total function: `none`
models a `ValueError` (either the pattern does not match or the day is out of
range for the month). -/
def parseYMD (s : String) : Option PDate :=
  match pySplitChar '-' s.data with
  | [y, m, d] =>
    if digitsExact 4 y && monthGroup m && dayGroup d then
      let yn := digitsToNat y
      let mn := digitsToNat m
      let dn := dayValue d
      if 1 ≤ yn && dn ≤ daysInMonth yn mn then
        some ⟨yn, mn, dn⟩
      else none
    else none
  | _ => none

/-- The locale month abbreviations that `%b` matches (case-insensitively). -/
def MONTH_ABBREVS : List String :=
  ["jan", "feb", "mar", "apr", "may", "jun",
   "jul", "aug", "sep", "oct", "nov", "dec"]

/-- Scan for a month abbreviation, returning its 1-based month number. -/
def monthLookup : List Char → List String → Nat → Option Nat
  | _, [], _ => none
  | t, m :: ms, i => if t = m.data then some i else monthLookup t ms (i + 1)

/-- Month number of an abbreviation, matched case-insensitively. -/
def monthOfAbbrev (s : List Char) : Option Nat :=
  monthLookup (s.map Char.toLower) MONTH_ABBREVS 1

/-- `datetime.strptime(s, "%Y-%b-%d").date()` as a total function. -/
def parseYBD (s : String) : Option PDate :=
  match pySplitChar '-' s.data with
  | [y, mon, d] =>
    if digitsExact 4 y && dayGroup d then
      match monthOfAbbrev mon with
      | some mn =>
        let yn := digitsToNat y
        let dn := dayValue d
        if 1 ≤ yn && dn ≤ daysInMonth yn mn then
          some ⟨yn, mn, dn⟩
        else none
      | none => none
    else none
  | _ => none

/-- `PubMedParser.parse_date` (`parser.py` lines 15-34): try `%Y-%m-%d`, then
`%Y-%b-%d`, and default to `date(1900, 1, 1)` when both raise. -/
def parseDate (s : String) : PDate :=
  match parseYMD s with
  | some d => d
  | none =>
    match parseYBD s with
    | some d => d
    | none => ⟨1900, 1, 1⟩

/-- A raw author record as handed to `parse_author` after the deterministic
affiliation-field assembly of `parser.py` lines 46-73 (spec section 1 treats
the record plumbing as an external data source): a name, the assembled
affiliation text, and the explicit corresponding flag
(`author_data.get("is_corresponding", False)`). -/
structure RawAuthor where
  name : String := ""
  affiliation : Option String := none
  is_corresponding : Bool := false
  deriving Repr, DecidableEq

/-- Python `part.strip(".,()<>[]\x7b\x7d")` of `parser.py` line 81. -/
def stripEmailPunct (s : List Char) : List Char :=
  stripEnds
    (fun c => c = '.' || c = ',' || c = '(' || c = ')' || c = '<' || c = '>'
      || c = '[' || c = ']' || c = '\x7b' || c = '\x7d') s

/-- Python `txt.replace(pat, "")`: remove every (left-to-right,
non-overlapping) occurrence of `pat`.  `fuel` bounds the recursion; it is
called with `txt.length`, which suffices because every step consumes at least
one character when `pat` is non-empty. -/
def replaceAllAux (pat : List Char) : Nat → List Char → List Char
  | 0, txt => txt
  | fuel + 1, txt =>
    match txt with
    | [] => []
    | c :: t =>
      if pat ≠ [] && isLeadOf pat txt then
        replaceAllAux pat fuel (txt.drop pat.length)
      else c :: replaceAllAux pat fuel t

/-- Python `txt.replace(pat, "")`. -/
def replaceAll (pat txt : List Char) : List Char :=
  replaceAllAux pat txt.length txt

/-- The candidate of `parser.py` line 81:
`part.strip(".,()<>[]\x7b\x7d").lower()`. -/
def emailCandidate (part : List Char) : List Char :=
  (stripEmailPunct part).map Char.toLower

/-- The test of `parser.py` lines 80-82: the token contains `@` and `.`, and
its stripped lower-cased candidate contains `@` with a `.` somewhere after the
first `@`. -/
def emailToken (part : List Char) : Bool :=
  part.contains '@' && part.contains '.' &&
    (emailCandidate part).contains '@' &&
    ((pySplitChar '@' (emailCandidate part)).getD 1 []).contains '.'

/-- `parser.py` lines 75-86: scan the whitespace tokens of the affiliation for
the first email-looking token; return the extracted email (if any) and the
affiliation with that token removed and stripped. -/
def extractEmail (aff : String) : Option String × String :=
  match (pySplitWs aff.data).find? emailToken with
  | some part => (some ⟨emailCandidate part⟩, ⟨pyStrip (replaceAll part aff.data)⟩)
  | none => (none, aff)

/-- `parser.py` lines 89-91: the corresponding-author text markers. -/
def CORR_TERMS : List String :=
  ["corresponding", "correspondence", "whom correspondence"]

/-- `parser.py` lines 90-91: the (email-stripped) affiliation, lower-cased,
contains one of the marker substrings. -/
def hasCorrTerm (aff : String) : Bool :=
  CORR_TERMS.any (fun t => containsSub (pyLower aff).data t.data)

/-- `PubMedParser.parse_author` (`parser.py` lines 36-99) from the assembled
raw record: default the name, extract an email from the affiliation, compute
`is_corresponding`, and build the `Author` (running `__post_init__`). -/
def parseAuthor (raw : RawAuthor) : Author :=
  let name := if raw.name = "" then "Unknown Author" else raw.name
  let pair : Option String × Option String :=
    match raw.affiliation with
    | some a =>
      if a ≠ "" then
        let r := extractEmail a
        (r.1, some r.2)
      else (none, some a)
    | none => (none, none)
  let email := pair.1
  let aff1 := pair.2
  let isCorr := optTruthy email
    || (optTruthy aff1 &&
        (match aff1 with | some a => hasCorrTerm a | none => false))
    || raw.is_corresponding
  mkAuthor name aff1 email isCorr false none

/-- A raw paper record (`paper_data` with its `.get` defaults applied). -/
structure RawPaper where
  uid : String := ""
  title : String := ""
  pubdate : String := ""
  authors : List RawAuthor := []
  abstract : String := ""
  deriving Repr, DecidableEq

/-- `PubMedParser.parse_paper` (`parser.py` lines 101-147): drop the record
(`none`) only when the stripped title or the uid is empty; an empty `pubdate`
defaults to 1900-01-01, otherwise `parse_date` is used (which never raises). -/
def parsePaper (rp : RawPaper) : Option Paper :=
  let pubmed_id := rp.uid
  let title := pyStripS rp.title
  if title = "" || pubmed_id = "" then none
  else
    let pub_date := if rp.pubdate = "" then ⟨1900, 1, 1⟩ else parseDate rp.pubdate
    some { pubmed_id := pubmed_id, title := title, publication_date := pub_date,
           authors := rp.authors.map parseAuthor, abstract := some rp.abstract }

/-! ## Reference definitions written from the spec's wording -/

/-- The matching discipline claimed for both keyword sets by spec section 4.1
step 2: a keyword counts only as a whole token of the dot-stripped text or
bounded by spaces. -/
def claimTokenMatch (kws : List String) (al : String) : Bool :=
  kws.any (fun k => companyKwMatch k al)

/-- The corresponding-email selection as the claim words it: first author with
`is_corresponding` and a non-`None` (possibly empty) email, else first author
with any non-`None` email, else `None`. -/
def claimCorrespondingEmail (p : Paper) : Option String :=
  match p.authors.find? (fun a => a.is_corresponding && a.email.isSome) with
  | some a => a.email
  | none =>
    match p.authors.find? (fun a => a.email.isSome) with
    | some a => a.email
    | none => none

/-- The corresponding-email selection with the truthiness the code actually
uses, phrased independently via `filter`/`head?`. -/
def amendedCorrespondingEmail (p : Paper) : Option String :=
  match (p.authors.filter (fun a => a.is_corresponding && emailTruthy a)).head? with
  | some a => a.email
  | none =>
    match (p.authors.filter emailTruthy).head? with
    | some a => a.email
    | none => none

/-- The corresponding-author rule as the claim words it: email extracted, or
the affiliation contains the substring "correspond" case-insensitively, or the
explicit flag. -/
def claimIsCorresponding (raw : RawAuthor) : Bool :=
  (parseAuthor raw).email.isSome
    || (match raw.affiliation with
        | some a => containsSub (pyLower a).data "correspond".data
        | none => false)
    || raw.is_corresponding

/-! ## Helper lemmas -/

theorem isLeadOf_iff (pat : List Char) :
    ∀ txt : List Char, isLeadOf pat txt = true ↔ ∃ post, txt = pat ++ post := by
  induction pat with
  | nil => intro txt; simp [isLeadOf]
  | cons a as ih =>
    intro txt
    cases txt with
    | nil =>
      simp only [isLeadOf]
      constructor
      · intro h; cases h
      · rintro ⟨post, h⟩; cases h
    | cons b bs =>
      simp only [isLeadOf, Bool.and_eq_true, decide_eq_true_eq, ih bs]
      constructor
      · rintro ⟨rfl, post, rfl⟩; exact ⟨post, rfl⟩
      · rintro ⟨post, h⟩
        injection h with h1 h2
        exact ⟨h1.symm, post, h2⟩

theorem findSubFrom_isSome (pat : List Char) :
    ∀ (txt : List Char) (i : Nat),
      (findSubFrom pat txt i).isSome = true ↔ ∃ pre post, txt = pre ++ pat ++ post := by
  intro txt
  induction txt with
  | nil =>
    intro i
    rw [findSubFrom]
    by_cases h : isLeadOf pat [] = true
    · obtain ⟨post, hp⟩ := (isLeadOf_iff pat []).mp h
      simp only [h, if_true, Option.isSome_some, true_iff]
      exact ⟨[], post, by simpa using hp⟩
    · simp only [h, if_false, Bool.false_eq_true, Option.isSome_none]
      constructor
      · intro hq; cases hq
      · rintro ⟨pre, post, hp⟩
        exact absurd ((isLeadOf_iff pat []).mpr
          ⟨post, by cases pre with
            | nil => simpa using hp
            | cons x xs => cases hp⟩) h
  | cons c t ih =>
    intro i
    rw [findSubFrom]
    by_cases h : isLeadOf pat (c :: t) = true
    · obtain ⟨post, hp⟩ := (isLeadOf_iff pat (c :: t)).mp h
      simp only [h, if_true, Option.isSome_some, true_iff]
      exact ⟨[], post, by simpa using hp⟩
    · simp only [h, if_false, Bool.false_eq_true]
      rw [ih (i + 1)]
      constructor
      · rintro ⟨pre, post, rfl⟩
        exact ⟨c :: pre, post, rfl⟩
      · rintro ⟨pre, post, hp⟩
        cases pre with
        | nil =>
          exact absurd ((isLeadOf_iff pat (c :: t)).mpr ⟨post, by simpa using hp⟩) h
        | cons x xs =>
          injection hp with h1 h2
          exact ⟨xs, post, h2⟩

/-- A substring occurs exactly when the text splits around it. -/
theorem findSub_isSome (pat txt : List Char) :
    (findSub pat txt).isSome = true ↔ ∃ pre post, txt = pre ++ pat ++ post :=
  findSubFrom_isSome pat txt 0

theorem mem_sortedInsert (s x : String) :
    ∀ l : List String, x ∈ sortedInsert s l ↔ x = s ∨ x ∈ l := by
  intro l
  induction l with
  | nil => simp [sortedInsert]
  | cons t ts ih =>
    rw [sortedInsert]
    by_cases h1 : s < t
    · simp [h1, List.mem_cons]
    · by_cases h2 : s = t
      · subst h2
        rw [if_neg h1, if_pos rfl]
        simp only [List.mem_cons]
        tauto
      · simp only [if_neg h1, if_neg h2, List.mem_cons, ih]
        tauto

theorem sorted_sortedInsert (s : String) :
    ∀ l : List String, List.Sorted (· < ·) l →
      List.Sorted (· < ·) (sortedInsert s l) := by
  intro l
  induction l with
  | nil => intro _; simp [sortedInsert]
  | cons t ts ih =>
    intro hl
    rw [List.sorted_cons] at hl
    obtain ⟨ht, hts⟩ := hl
    rw [sortedInsert]
    by_cases h1 : s < t
    · rw [if_pos h1, List.sorted_cons]
      refine ⟨?_, List.sorted_cons.mpr ⟨ht, hts⟩⟩
      intro b hb
      rcases List.mem_cons.mp hb with rfl | hb'
      · exact h1
      · exact lt_trans h1 (ht b hb')
    · by_cases h2 : s = t
      · rw [if_neg h1, if_pos h2]
        exact List.sorted_cons.mpr ⟨ht, hts⟩
      · rw [if_neg h1, if_neg h2, List.sorted_cons]
        refine ⟨?_, ih hts⟩
        intro b hb
        rcases (mem_sortedInsert s b ts).mp hb with hbs | hb'
        · rw [hbs]
          rcases lt_trichotomy s t with h | h | h
          · exact absurd h h1
          · exact absurd h h2
          · exact h
        · exact ht b hb'

theorem sorted_foldr_sortedInsert (l : List String) :
    List.Sorted (· < ·) (l.foldr sortedInsert []) := by
  induction l with
  | nil => simp
  | cons s ts ih => exact sorted_sortedInsert s _ ih

theorem mem_foldr_sortedInsert (x : String) (l : List String) :
    x ∈ l.foldr sortedInsert [] ↔ x ∈ l := by
  induction l with
  | nil => simp
  | cons s ts ih =>
    rw [List.foldr_cons, mem_sortedInsert, ih, List.mem_cons]

theorem foldl_optMin_isSome (l : List (Option Nat)) :
    ∀ acc : Option Nat, (l.foldl optMin acc).isSome = true ↔
      acc.isSome = true ∨ ∃ x ∈ l, x.isSome = true := by
  induction l with
  | nil => intro acc; simp
  | cons a t ih =>
    intro acc
    rw [List.foldl_cons, ih]
    have hm : (optMin acc a).isSome = (acc.isSome || a.isSome) := by
      cases acc <;> cases a <;> rfl
    rw [hm]
    simp only [Bool.or_eq_true, List.mem_cons]
    constructor
    · rintro (⟨h | h⟩ | ⟨x, hx, hs⟩)
      · exact Or.inl h
      · exact Or.inr ⟨a, Or.inl rfl, h⟩
      · exact Or.inr ⟨x, Or.inr hx, hs⟩
    · rintro (h | ⟨x, hx | hx, hs⟩)
      · exact Or.inl (Or.inl h)
      · subst hx; exact Or.inl (Or.inr hs)
      · exact Or.inr ⟨x, hx, hs⟩

theorem academicMinPos_isSome (al : String) (h : hasAcademicKw al = true) :
    (academicMinPos al).isSome = true := by
  unfold academicMinPos minPosList
  rw [foldl_optMin_isSome]
  right
  unfold hasAcademicKw at h
  rw [List.any_eq_true] at h
  obtain ⟨k, hk, hks⟩ := h
  unfold containsSub at hks
  exact ⟨findSub k.data al.data, List.mem_map_of_mem _ hk, hks⟩

theorem find?_eq_head_filter {α : Type} (p : α → Bool) :
    ∀ l : List α, l.find? p = (l.filter p).head? := by
  intro l
  induction l with
  | nil => rfl
  | cons a t ih =>
    by_cases h : p a = true
    · rw [List.find?_cons_of_pos _ h, List.filter_cons_of_pos h]
      rfl
    · rw [List.find?_cons_of_neg _ (by simpa using h),
        List.filter_cons_of_neg (by simpa using h), ih]

/-! ## Claims -/

/-- Claim C1, corrected: for a default-constructed `Author`, a non-`None`
`company_name` implies `is_non_academic = true`.  The claimed converse is
refuted by `c1_counterexample`: classification can succeed while every
comma-segment is filtered as noise, leaving `company_name = None` with
`is_non_academic = true`. -/
theorem c1_theorem (name : String) (aff : Option String)
    (h : (mkAuthorDefault name aff).company_name ≠ none) :
    (mkAuthorDefault name aff).is_non_academic = true := by
  by_cases ht : optTruthy aff = true
  · by_cases hc : checkNonAcademic aff = true
    · simp [mkAuthorDefault, mkAuthor, ht, hc]
    · rw [Bool.not_eq_true] at hc
      simp [mkAuthorDefault, mkAuthor, ht, hc] at h
  · rw [Bool.not_eq_true] at ht
    simp [mkAuthorDefault, mkAuthor, ht] at h

/-- Witness for `c1_theorem` at the affiliation "Acme Pharma". -/
theorem c1_witness :
    (mkAuthorDefault "Ann" (some "Acme Pharma")).company_name ≠ none ∧
      (mkAuthorDefault "Ann" (some "Acme Pharma")).is_non_academic = true :=
  ⟨by decide, c1_theorem "Ann" (some "Acme Pharma") (by decide)⟩

/-- Counterexample to claim C1 as stated: the affiliation "Pharma Research"
classifies as non-academic (token "pharma"), but its only comma-segment
contains the noise word "research", so `company_name` stays `None` while
`is_non_academic` is true — the claimed "if and only if" fails. -/
theorem c1_counterexample :
    (mkAuthorDefault "Jane" (some "Pharma Research")).is_non_academic = true ∧
      (mkAuthorDefault "Jane" (some "Pharma Research")).company_name = none := by
  decide

/-- Claim C2, corrected: company keywords are indeed matched as whole tokens
of the dot-stripped text or bounded by spaces, but academic keywords are
matched by plain substring containment, so an academic keyword occurring
inside a longer word does count as a match. -/
theorem c2_theorem (al : String) :
    (hasAcademicKw al = true ↔
        ∃ k ∈ ACADEMIC_KEYWORDS, ∃ pre post, al.data = pre ++ k.data ++ post) ∧
      hasCompanyKw al = claimTokenMatch COMPANY_KEYWORDS al := by
  constructor
  · unfold hasAcademicKw containsSub
    rw [List.any_eq_true]
    constructor
    · rintro ⟨k, hk, hks⟩
      exact ⟨k, hk, (findSub_isSome _ _).mp hks⟩
    · rintro ⟨k, hk, hks⟩
      exact ⟨k, hk, (findSub_isSome _ _).mpr hks⟩
  · rfl

/-- Counterexample to claim C2 as stated: in "preschools inc" the academic
keyword "school" occurs only as a proper substring of "preschools", yet the
code counts it as an academic match (and the position tie-break then makes the
whole classifier return `false`), while the claimed token/space-bounded
discipline would find no academic match at all. -/
theorem c2_counterexample :
    hasAcademicKw "preschools inc" = true ∧
      claimTokenMatch ACADEMIC_KEYWORDS "preschools inc" = false ∧
      hasCompanyKw "preschools inc" = true ∧
      checkNonAcademic (some "Preschools Inc") = false := by
  decide

/-- Claim C3, confirmed: when the affiliation is truthy and both keyword
classes match, the classifier returns `true` exactly when the earliest
character offset of a company keyword is strictly smaller than the earliest
character offset of an academic keyword. -/
theorem c3_theorem (s : String) (h1 : optTruthy (some s) = true)
    (h2 : hasAcademicKw (pyLower s) = true)
    (h3 : hasCompanyKw (pyLower s) = true) :
    (checkNonAcademic (some s) = true ↔
      ∃ c a, companyMinPos (pyLower s) = some c ∧
        academicMinPos (pyLower s) = some a ∧ c < a) := by
  have hne : ¬(s = "") := by simpa [optTruthy] using h1
  have key : checkNonAcademic (some s) =
      infLt (companyMinPos (pyLower s)) (academicMinPos (pyLower s)) := by
    unfold checkNonAcademic
    simp [hne, h2, h3]
  rw [key]
  obtain ⟨a, ha⟩ := Option.isSome_iff_exists.mp (academicMinPos_isSome _ h2)
  rw [ha]
  cases hc : companyMinPos (pyLower s) with
  | none =>
    simp only [infLt, Bool.false_eq_true, false_iff]
    rintro ⟨c, a', hcs, -, -⟩
    cases hcs
  | some c =>
    simp only [infLt, decide_eq_true_eq]
    constructor
    · intro h
      exact ⟨c, a, rfl, rfl, h⟩
    · rintro ⟨c', a', hc', ha', hlt⟩
      injection hc' with hc'
      injection ha' with ha'
      rw [← hc', ← ha'] at hlt
      exact hlt

/-- Witness for `c3_theorem` at "pharma institute" (company keyword at offset
0, academic keyword at offset 7). -/
theorem c3_witness :
    (checkNonAcademic (some "pharma institute") = true ↔
      ∃ c a, companyMinPos (pyLower "pharma institute") = some c ∧
        academicMinPos (pyLower "pharma institute") = some a ∧ c < a) :=
  c3_theorem "pharma institute" (by decide) (by decide) (by decide)

/-- Claim C4, confirmed: the classifier is a total function and on `None` and
the empty string it yields `(false, None)`. -/
theorem c4_theorem :
    classifyAffiliation none = (false, none) ∧
      classifyAffiliation (some "") = (false, none) := by
  decide

/-- Claim C5 (code bug): evaluating the code on the spec's own example
"Pfizer Inc., Research Division" yields `(false, None)` — the token "inc,"
(comma kept, dot removed) matches no company keyword clause — whereas the spec
and the repository's own test assert `(true, "Pfizer Inc")`. -/
theorem c5_code_eval :
    (mkAuthorDefault "Jane Smith"
        (some "Pfizer Inc., Research Division")).is_non_academic = false ∧
      (mkAuthorDefault "Jane Smith"
        (some "Pfizer Inc., Research Division")).company_name = none := by
  decide

/-- Claim C10, confirmed: with a `None` or empty affiliation,
`__post_init__` performs no classification, so the constructor-supplied
`is_non_academic` and `company_name` pass through unchanged — in particular an
`Author` with `is_non_academic = false` and a non-`None` `company_name` is
directly constructible. -/
theorem c10_theorem (name : String) (email : Option String) (ic ina : Bool)
    (cn : Option String) :
    ((mkAuthor name none email ic ina cn).is_non_academic = ina ∧
        (mkAuthor name none email ic ina cn).company_name = cn) ∧
      ((mkAuthor name (some "") email ic ina cn).is_non_academic = ina ∧
        (mkAuthor name (some "") email ic ina cn).company_name = cn) ∧
      (mkAuthor "x" none none false false (some "Acme")).is_non_academic = false ∧
      (mkAuthor "x" none none false false (some "Acme")).company_name = some "Acme" :=
  ⟨⟨rfl, rfl⟩, ⟨rfl, rfl⟩, rfl, rfl⟩

/-- Claim C6, corrected: the selection prefers the first corresponding author
whose email is truthy (non-`None` and non-empty), not merely non-`None`; an
author with `email = Some ""` is skipped. -/
theorem c6_theorem (p : Paper) :
    correspondingAuthorEmail p = amendedCorrespondingEmail p := by
  unfold correspondingAuthorEmail amendedCorrespondingEmail
  rw [find?_eq_head_filter, find?_eq_head_filter]

/-- Counterexample to claim C6 as stated: a paper whose only author is
corresponding with the non-`None` email `Some ""` — the claim selects that
empty email, the code skips it and returns `None`. -/
theorem c6_counterexample :
    correspondingAuthorEmail
        ⟨"1", "t", ⟨2023, 1, 1⟩,
          [{ name := "A", email := some "", is_corresponding := true }], none⟩ = none ∧
      claimCorrespondingEmail
        ⟨"1", "t", ⟨2023, 1, 1⟩,
          [{ name := "A", email := some "", is_corresponding := true }], none⟩ = some "" := by
  decide

/-- Claim C7, confirmed: `company_affiliations` is strictly sorted,
duplicate-free, and contains exactly the non-`None` company names of the
non-academic authors. -/
theorem c7_theorem (p : Paper) :
    List.Sorted (· < ·) (companyAffiliations p) ∧
      (companyAffiliations p).Nodup ∧
      ∀ s, s ∈ companyAffiliations p ↔
        ∃ a, a ∈ p.authors ∧ a.is_non_academic = true ∧ a.company_name = some s := by
  have hs : List.Sorted (· < ·) (companyAffiliations p) :=
    sorted_foldr_sortedInsert (companyNamesList p)
  refine ⟨hs, hs.nodup, ?_⟩
  intro s
  rw [show companyAffiliations p = (companyNamesList p).foldr sortedInsert []
      from rfl,
    mem_foldr_sortedInsert]
  unfold companyNamesList nonAcademicAuthors
  rw [List.mem_filterMap]
  constructor
  · rintro ⟨a, ha, hcn⟩
    rw [List.mem_filter] at ha
    exact ⟨a, ha.1, by simpa using ha.2, hcn⟩
  · rintro ⟨a, ha, hina, hcn⟩
    exact ⟨a, List.mem_filter.mpr ⟨ha, by simpa using hina⟩, hcn⟩

/-- Claim C8, confirmed: a date string matching neither `%Y-%m-%d` nor
`%Y-%b-%d` makes `parse_date` return 1900-01-01, and `parse_paper` still
returns a paper (with that default date) whenever title and uid are present. -/
theorem c8_theorem (s : String) (hy : parseYMD s = none) (hb : parseYBD s = none)
    (rp : RawPaper) (hd : rp.pubdate = s) (ht : pyStripS rp.title ≠ "")
    (hu : rp.uid ≠ "") :
    parseDate s = ⟨1900, 1, 1⟩ ∧
      ∃ p, parsePaper rp = some p ∧ p.publication_date = ⟨1900, 1, 1⟩ := by
  subst hd
  have hpd : parseDate rp.pubdate = ⟨1900, 1, 1⟩ := by
    unfold parseDate
    rw [hy, hb]
  refine ⟨hpd, ?_⟩
  unfold parsePaper
  rw [if_neg (by simp [ht, hu])]
  refine ⟨_, rfl, ?_⟩
  by_cases h0 : rp.pubdate = ""
  · simp [h0]
  · simp [h0, hpd]

/-- Witness for `c8_theorem` at the unparseable date "not-a-date". -/
theorem c8_witness :
    parseYMD "not-a-date" = none ∧
      (parseDate "not-a-date" = ⟨1900, 1, 1⟩ ∧
        ∃ p, parsePaper { uid := "7", title := "T", pubdate := "not-a-date" } = some p ∧
          p.publication_date = ⟨1900, 1, 1⟩) :=
  ⟨by decide,
    c8_theorem "not-a-date" (by decide) (by decide)
      { uid := "7", title := "T", pubdate := "not-a-date" } rfl (by decide) (by decide)⟩

theorem mkAuthor_is_corr (n : String) (aff e : Option String) (ic ina : Bool)
    (cn : Option String) : (mkAuthor n aff e ic ina cn).is_corresponding = ic := by
  unfold mkAuthor
  split <;> rfl

theorem mkAuthor_email (n : String) (aff e : Option String) (ic ina : Bool)
    (cn : Option String) : (mkAuthor n aff e ic ina cn).email = e := by
  unfold mkAuthor
  split <;> rfl

/-- Containing "whom correspondence" implies containing "correspondence". -/
theorem whom_implies_correspondence (t : List Char)
    (h : containsSub t "whom correspondence".data = true) :
    containsSub t "correspondence".data = true := by
  unfold containsSub at h ⊢
  rw [findSub_isSome] at h ⊢
  obtain ⟨pre, post, hp⟩ := h
  have hsplit : "whom correspondence".data = "whom ".data ++ "correspondence".data := by
    decide
  rw [hsplit] at hp
  exact ⟨pre ++ "whom ".data, post, by rw [hp]; simp⟩

/-- The three-term marker scan collapses to the two independent substrings. -/
theorem hasCorrTerm_eq (a : String) :
    hasCorrTerm a =
      (containsSub (pyLower a).data "corresponding".data
        || containsSub (pyLower a).data "correspondence".data) := by
  unfold hasCorrTerm CORR_TERMS
  by_cases h3 : containsSub (pyLower a).data "whom correspondence".data = true
  · have h2 := whom_implies_correspondence _ h3
    simp [h2, h3]
  · rw [Bool.not_eq_true] at h3
    simp [h3]

/-- A token accepted by the email test has a non-empty candidate (it contains
an `@`). -/
theorem emailToken_candidate_ne (part : List Char) (h : emailToken part = true) :
    emailCandidate part ≠ [] := by
  unfold emailToken at h
  simp only [Bool.and_eq_true] at h
  have hc := h.1.2
  intro hnil
  rw [hnil] at hc
  simp at hc

/-- Claim C9, corrected: `is_corresponding` is true exactly when an email was
extracted, or the (email-stripped) affiliation contains "corresponding" or
"correspondence" case-insensitively, or the explicit flag was supplied — the
bare word "correspond" alone does not trigger it. -/
theorem c9_theorem (raw : RawAuthor) :
    (parseAuthor raw).is_corresponding =
      (optTruthy (parseAuthor raw).email
        || (optTruthy raw.affiliation &&
            (containsSub (pyLower (raw.affiliation.getD "")).data
                "corresponding".data
              || containsSub (pyLower (raw.affiliation.getD "")).data
                "correspondence".data))
        || raw.is_corresponding) := by
  unfold parseAuthor
  cases haff : raw.affiliation with
  | none =>
    simp [mkAuthor_is_corr, mkAuthor_email, optTruthy]
  | some a =>
    by_cases ha : a = ""
    · subst ha
      simp [mkAuthor_is_corr, mkAuthor_email, optTruthy]
    · cases hfind : (pySplitWs a.data).find? emailToken with
      | none =>
        have hext : extractEmail a = (none, a) := by
          unfold extractEmail
          rw [hfind]
        simp [ha, hext, mkAuthor_is_corr, mkAuthor_email, optTruthy,
          hasCorrTerm_eq]
      | some part =>
        have htok : emailToken part = true := List.find?_some hfind
        have hne : emailCandidate part ≠ [] := emailToken_candidate_ne part htok
        have hext : extractEmail a =
            (some ⟨emailCandidate part⟩, ⟨pyStrip (replaceAll part a.data)⟩) := by
          unfold extractEmail
          rw [hfind]
        have hs : (⟨emailCandidate part⟩ : String) ≠ "" := by
          simpa [String.ext_iff] using hne
        simp [ha, hext, mkAuthor_is_corr, mkAuthor_email, optTruthy, hs]

/-- Counterexample to claim C9 as stated: the affiliation "Correspond with us
at Pfizer" contains "correspond" case-insensitively, so the claim demands
`is_corresponding = true`, but the code scans only for "corresponding" /
"correspondence" and returns `false`. -/
theorem c9_counterexample :
    (parseAuthor
          ⟨"A", some "Correspond with us at Pfizer", false⟩).is_corresponding
        = false ∧
      claimIsCorresponding ⟨"A", some "Correspond with us at Pfizer", false⟩
        = true := by
  decide

end PubMed
